import Mathlib

/-
  Verification of the entity-bound resource lifecycle core of the zycore
  repository (TypeScript, roblox-ts) against its natural-language spec.

  Shallow embedding conventions:
  * The DisposerList primitive is the repository's own linked-list class
    (class `X` in the source, the in-repo variant of the Osyris Bin library
    that `BinMap` wraps): a singly linked chain of nodes with `head` and
    `tail` pointers.  Because `X.x` mutates `tail.next` in place while
    `X.destroy` holds a previously captured `next` pointer, the model keeps
    an explicit node heap with addresses (`Nat`) so that aliasing behaves
    exactly as in the source.
  * Mutable maps are association lists with insert-at-front shadowing and
    first-match lookup; `Map.delete` removes every entry for the key.
  * Callbacks stored in lists are deep-embedded as data and interpreted by
    fuel-indexed evaluators that are structurally recursive on the fuel, so
    every concrete run reduces by `rfl`/`decide`.  `none` means the fuel ran
    out before the call returned.
  * A thrown string becomes `Except.error`, observable broadcasts (`Ping`)
    become append-only logs.
-/

namespace Zycore

/-! ## Association-list helpers (the `Map` objects of the source) -/

/-- First-match lookup in an association list. -/
def alGet? {α : Type} [DecidableEq α] (k : α) : List (α × β) → Option β
  | [] => none
  | (k', v) :: rest => if k' = k then some v else alGet? k rest

/-- Lookup with a default value. -/
def alGetD {α : Type} [DecidableEq α] (k : α) (l : List (α × β)) (d : β) : β :=
  (alGet? k l).getD d

/-- Insert at the front; shadows any previous binding for the key. -/
def alSet {α : Type} (k : α) (v : β) (l : List (α × β)) : List (α × β) :=
  (k, v) :: l

/-- Remove every binding of the key (`Map.delete`). -/
def alErase {α : Type} [DecidableEq α] (k : α) (l : List (α × β)) : List (α × β) :=
  l.filter (fun e => e.1 ≠ k)

/-! ## The DisposerList (class `X`, src/unnamed/part_009)

A disposer is identified by a numeric id; when invoked it may re-entrantly
add further disposers to the same list (the re-entrancy the spec demands
release tolerate).  `X.x` appends a node at `tail`, `X.destroy` loops:
capture `(item, next)` from `head`, run the item, then set `head := next`
(the captured pointer). -/

/-- A cleanup action: its id plus the disposers its body re-entrantly adds
to the same list when it runs (translated from the disposers-that-register
-further-cleanup behaviour the source supports through closures). -/
inductive Disposer where
  | mk (id : Nat) (adds : List Disposer)

/-- The id of a disposer. -/
def Disposer.id : Disposer → Nat
  | .mk i _ => i

/-- The disposers a disposer re-entrantly adds when invoked. -/
def Disposer.adds : Disposer → List Disposer
  | .mk _ a => a

/-- State of one `X` list: a heap of nodes `addr ↦ (item, next)`, the
`head`/`tail` pointers, a fresh-address counter, and the invocation log. -/
structure XState where
  nodes : List (Nat × (Disposer × Option Nat))
  head : Option Nat
  tail : Option Nat
  fresh : Nat
  invoked : List Nat

/-- The empty `X` list. -/
def X0 : XState := ⟨[], none, none, 0, []⟩

/-- `X.x(item)`: allocate a node, `head ??= node`, link `tail.next` to it,
move `tail` (part_009 lines 99-107). -/
def xAdd (d : Disposer) (s : XState) : XState :=
  let a := s.fresh
  let nodes1 := alSet a (d, none) s.nodes
  let nodes2 :=
    match s.tail with
    | none => nodes1
    | some t =>
      match alGet? t nodes1 with
      | none => nodes1
      | some (dt, _) => alSet t (dt, some a) nodes1
  { nodes := nodes2
    head := match s.head with | none => some a | some h => some h
    tail := some a
    fresh := s.fresh + 1
    invoked := s.invoked }

/-- Invoking a disposer: log its id, then run the `x` calls its body makes. -/
def runDisposer (d : Disposer) (s : XState) : XState :=
  d.adds.foldl (fun s' d' => xAdd d' s')
    { s with invoked := s.invoked ++ [d.id] }

/-- `X.destroy()` (part_009 lines 112-118): while `head` is set, capture
`(item, next)` from the head node, run the item, then assign the captured
`next` to `head`.  Fuel-indexed; `none` = fuel exhausted. -/
def destroyX : Nat → XState → Option XState
  | 0, _ => none
  | f + 1, s =>
    match s.head with
    | none => some s
    | some h =>
      match alGet? h s.nodes with
      | none => none
      | some (d, nxt) => destroyX f { runDisposer d s with head := nxt }

/-! ## BinMap and InstanceCollection (src/src/BinMap.ts,
src/src/instance-collection/InstanceCollection.ts)

`BinMap` maps a key to a Bin object (the `X` list above).  The items an
`InstanceCollection` stores in a bin are exactly three kinds: the closure
`() => this.unbindFrom(instance)`, the `AncestryChanged` connection, and
the caller's cleanup item; none of them calls `X.x` while a bin is being
destroyed, so a bin's chain is immutable during a destroy and its reachable
part is modelled as a plain `List Item`.  Bin objects still live in a heap
addressed by `Nat`, because `BinMap.delete` grabs the bin object first and
keeps destroying it even while re-entrant calls mutate the same object.
The `X.destroy` loop shape is preserved exactly: capture the head item and
its tail, run the item, then overwrite the bin with the captured tail. -/

/-- An item held in an `InstanceCollection` bin. -/
inductive Item where
  | unbind (e : Nat)
  | conn (e : Nat)
  | user (n : Nat)
deriving DecidableEq, Repr

/-- State of an `InstanceCollection`: the `BinMap` (key ↦ bin address plus
a heap of bin objects), the log of invoked user items, and the log of
disconnected `AncestryChanged` connections. -/
structure ICState where
  binOf : List (Nat × Nat)
  heap : List (Nat × List Item)
  fresh : Nat
  invoked : List Nat
  disconnected : List Nat
deriving DecidableEq, Repr

/-- The collection with nothing tracked. -/
def icEmpty : ICState := ⟨[], [], 0, [], []⟩

/-- `BinMap.getBin(key)` (BinMap.ts lines 92-101): return the stored bin,
or create, store and return a fresh empty one. -/
def getBin (k : Nat) (s : ICState) : Nat × ICState :=
  match alGet? k s.binOf with
  | some a => (a, s)
  | none =>
    (s.fresh,
     { s with
        binOf := alSet k s.fresh s.binOf
        heap := alSet s.fresh [] s.heap
        fresh := s.fresh + 1 })

/-- `BinMap.has(key)` (BinMap.ts lines 82-84): a pure read of the map, the
one operation that does not go through `getBin`. -/
def binMapHas (k : Nat) (s : ICState) : Bool :=
  (alGet? k s.binOf).isSome

/-- `BinMap.add(key, item)`: `getBin(key).add(item)`; `X.x` appends the
item at the tail of the bin's chain. -/
def binMapAdd (k : Nat) (it : Item) (s : ICState) : ICState :=
  let (a, s1) := getBin k s
  { s1 with heap := alSet a (alGetD a s1.heap [] ++ [it]) s1.heap }

/-- `BinMap.isEmpty(key)` (BinMap.ts lines 71-73):
`getBin(key).isEmpty()` — materializes the bin, then checks it. -/
def binMapIsEmpty (k : Nat) (s : ICState) : Bool × ICState :=
  let (a, s1) := getBin k s
  ((alGetD a s1.heap []).isEmpty, s1)

/-- `Map.delete(key)`: report whether the key was present, then remove it. -/
def mapDelete (k : Nat) (s : ICState) : Bool × ICState :=
  ((alGet? k s.binOf).isSome, { s with binOf := alErase k s.binOf })

/-- The re-entrant calls of the collection, deep-embedded so a single
fuel-indexed evaluator (structurally recursive on the fuel) interprets
them: `del` is `BinMap.delete` = `InstanceCollection.unbindFrom`,
`rel` is `BinMap.destroy` (the registry's per-key release),
`destGo` is the `X.destroy` loop over a bin object at an address with the
captured remainder of its chain, and `clean` invokes one item. -/
inductive ICCall where
  | del (e : Nat)
  | rel (e : Nat)
  | destGo (a : Nat) (pending : List Item)
  | clean (it : Item)

/-- Fuel-indexed interpreter for the collection's re-entrant operations.
`none` means the fuel ran out before the call returned; the `Bool` is the
result of `Map.delete` for `del` and `true` for the `Unit`-valued calls.

Source for each case:
* `del e` — `BinMap.delete` (BinMap.ts 52-55): `getBin(key).destroy()`
  then `map.delete(key)`.
* `rel e` — `BinMap.destroy` (BinMap.ts 35-37): `getBin(key).destroy()`.
* `destGo a pending` — `X.destroy` (part_009 112-118): if the chain is
  non-empty, capture `(item, rest)`, run `item` (which may re-enter the
  same bin), then overwrite the bin at `a` with the captured `rest` and
  loop.
* `clean it` — invoking one item: a user item is logged, the
  `AncestryChanged` connection is disconnected, and the
  `() => this.unbindFrom(instance)` closure re-enters `BinMap.delete`
  (InstanceCollection.ts 21-41). -/
def icCall : Nat → ICCall → ICState → Option (Bool × ICState)
  | 0, _, _ => none
  | f + 1, c, s =>
    match c with
    | .del e =>
      let (a, s1) := getBin e s
      match icCall f (.destGo a (alGetD a s1.heap [])) s1 with
      | none => none
      | some (_, s2) => some (mapDelete e s2)
    | .rel e =>
      let (a, s1) := getBin e s
      match icCall f (.destGo a (alGetD a s1.heap [])) s1 with
      | none => none
      | some (_, s2) => some (true, s2)
    | .destGo a pending =>
      match pending with
      | [] => some (true, s)
      | it :: rest =>
        match icCall f (.clean it) s with
        | none => none
        | some (_, s1) =>
          icCall f (.destGo a rest) { s1 with heap := alSet a rest s1.heap }
    | .clean it =>
      match it with
      | .user n => some (true, { s with invoked := s.invoked ++ [n] })
      | .conn e => some (true, { s with disconnected := s.disconnected ++ [e] })
      | .unbind e => icCall f (.del e) s

/-- `InstanceCollection.bindTo(instance, item)` (InstanceCollection.ts
lines 21-32): if the instance already has a bin, return at once; otherwise
add the `() => unbindFrom(instance)` closure, the `AncestryChanged`
connection, and the caller's item, in that order. -/
def bindTo (e : Nat) (it : Item) (s : ICState) : ICState :=
  if binMapHas e s then s
  else
    binMapAdd e it (binMapAdd e (.conn e) (binMapAdd e (.unbind e) s))

/-- `InstanceCollection.unbindFrom(instance)` (lines 39-41):
`return this.bins.delete(instance)`, fuel-indexed. -/
def unbindFrom (f : Nat) (e : Nat) (s : ICState) : Option (Bool × ICState) :=
  icCall f (.del e) s

/-- The state after tracking entity 1 with user cleanup 1: its bin holds
the unbind closure, the connection, and the user item, in that order. -/
def sTracked : ICState := bindTo 1 (.user 1) icEmpty

/-! ## ClassWatcher (src/src/instance-collection/InstanceSet.ts,
the `ClassWatcher` class, lines 150-240)

A child entity is a pair of a numeric name and a numeric class id; `IsA`
and `FindFirstChildOfClass` match on the class id.  The watcher's own bin
holds its two event connections; the occurrence-scoped bin
(`currentInstanceBin`) holds the tokens the `onAdded` subscriber registered
through `trash`.  Ping fires become append-only logs. -/

/-- A child of the watched instance: `(name, cls)`. -/
structure Child where
  name : Nat
  cls : Nat
deriving DecidableEq, Repr

/-- The two connections `linkTo` stores in the watcher's bin. -/
inductive CWConn where
  | added
  | removed
deriving DecidableEq, Repr

/-- State of a `ClassWatcher`. `scopedItems` is the content of
`currentInstanceBin`, `scopedReleased` logs the tokens that bin released,
`addedLog`/`removedLog` log the `onAdded`/`onRemoved` ping fires. -/
structure CWState where
  isDestroyed : Bool
  conns : List CWConn
  watched : Nat
  className : Nat
  existing : Bool
  currentInstance : Option Child
  scopedItems : List Nat
  scopedReleased : List Nat
  addedLog : List Child
  removedLog : List Child
deriving DecidableEq, Repr

/-- The constructor `new ClassWatcher(watchedInstance, className, existing)`. -/
def cwNew (watched className : Nat) (existing : Bool) : CWState :=
  ⟨false, [], watched, className, existing, none, [], [], [], []⟩

/-- `instance.FindFirstChildOfClass(className)`: the first child whose
class matches. -/
def findFirstChildOfClass (cls : Nat) (children : List Child) : Option Child :=
  children.find? (fun c => c.cls == cls)

/-- `ClassWatcher.added(child)` (InstanceSet.ts lines 188-196): ignore the
event if the occurrence-scoped bin is non-empty or the child is already
current; otherwise record the child as current, give it a fresh scoped bin
(the old one is replaced, not released), and fire `onAdded`. -/
def cwAdded (c : Child) (s : CWState) : CWState :=
  if ¬s.scopedItems.isEmpty ∨ s.currentInstance = some c then s
  else
    { s with
        currentInstance := some c
        scopedItems := []
        addedLog := s.addedLog ++ [c] }

/-- `ClassWatcher.clearCurrent()` (lines 217-220): clear the current child
and destroy the scoped bin (releasing its tokens), firing nothing. -/
def cwClearCurrent (s : CWState) : CWState :=
  { s with
      currentInstance := none
      scopedReleased := s.scopedReleased ++ s.scopedItems
      scopedItems := [] }

/-- `ClassWatcher.removed(child)`: only the current child's removal clears
the occurrence and fires `onRemoved`. -/
def cwRemoved (c : Child) (s : CWState) : CWState :=
  if s.currentInstance = some c then
    { cwClearCurrent s with removedLog := s.removedLog ++ [c] }
  else s

/-- `ClassWatcher.watch()` = `linkTo(watchedInstance)` (lines 157-179):
return unchanged while the bin is non-empty; throw if destroyed; otherwise
store the `ChildAdded`/`ChildRemoved` connections and, when `existing` is
set, synthesize an added occurrence for the first matching child already
present.  `children` is the watched instance's current child list. -/
def cwWatch (children : List Child) (s : CWState) : Except String CWState :=
  if ¬s.conns.isEmpty then .ok s
  else if s.isDestroyed then .error "ClassWatcher is destroyed."
  else
    let s1 := { s with conns := [CWConn.added, CWConn.removed] }
    .ok
      (if s1.existing then
        match findFirstChildOfClass s1.className children with
        | some child => cwAdded child s1
        | none => s1
      else s1)

/-- `ClassWatcher.destroy()` (lines 231-239): once only; disconnect the
bin's connections, then clear the current occurrence. -/
def cwDestroy (s : CWState) : CWState :=
  if s.isDestroyed then s
  else cwClearCurrent { s with isDestroyed := true, conns := [] }

/-! ## CharacterWatcher, bin-guard variant
(src/src/char-watcher/CharacterWatcher.ts)

Its constructor stores the two pings in its own bin, `watch()` throws when
the bin is empty (= destroyed), processes the existing character, then adds
the `CharacterAdded`/`CharacterRemoving` connections — with no
already-watching guard.  `env` is `player.Character`. -/

/-- Items in the bin-guard CharacterWatcher's bin: the two pings placed by
the constructor plus one connection pair per `watch()` call. -/
inductive ChItem where
  | pingA
  | pingR
  | connA
  | connR
deriving DecidableEq, Repr

/-- State of the bin-guard CharacterWatcher. -/
structure ChWState where
  binItems : List ChItem
  existing : Bool
  addedLog : List Nat
  removingLog : List Nat
deriving DecidableEq, Repr

/-- Its constructor: the bin starts with the two pings. -/
def chwNew (existing : Bool) : ChWState :=
  ⟨[.pingA, .pingR], existing, [], []⟩

/-- `CharacterWatcher.added(char)`: fire `onAdded`. -/
def chwAdded (c : Nat) (s : ChWState) : ChWState :=
  { s with addedLog := s.addedLog ++ [c] }

/-- `CharacterWatcher.watch()` (char-watcher/CharacterWatcher.ts lines
41-54): throw if the bin is empty; fire for the existing character if
desired; then connect and store the connections. -/
def chwWatch (env : Option Nat) (s : ChWState) : Except String ChWState :=
  if s.binItems.isEmpty then .error "CharacterWatcher is destroyed."
  else
    let s1 :=
      if s.existing then
        match env with
        | some c => chwAdded c s
        | none => s
      else s
    .ok { s1 with binItems := s1.binItems ++ [.connA, .connR] }

/-- `CharacterWatcher.destroy()`: `this.bin.destroy()` — the pings are
destroyed and the connections disconnected, draining the bin. -/
def chwDestroy (s : ChWState) : ChWState :=
  { s with binItems := [] }

/-- A live `CharacterAdded(c)` event: each stored `CharacterAdded`
connection invokes the `added` handler once. -/
def chwDeliver (c : Nat) (s : ChWState) : ChWState :=
  (s.binItems.filter (fun i => i == ChItem.connA)).foldl
    (fun s' _ => chwAdded c s') s

/-! ## CharacterWatcher, linkTo variant (src/unnamed/part_009 lines
160-260) — the member watcher `GlobalCharacterWatcher` composes.

This variant keeps an `isDestroyed` flag, guards `linkTo` with
`!bin.isEmpty`, connects first and then fires for the existing
character. -/

/-- The two connections its `linkTo` stores in the bin. -/
inductive MConn where
  | mAdded
  | mRemoving
deriving DecidableEq, Repr

/-- State of the linkTo-variant CharacterWatcher. -/
structure MCWState where
  isDestroyed : Bool
  conns : List MConn
  player : Nat
  existing : Bool
  pingsDestroyed : Bool
  addedLog : List Nat
  removingLog : List Nat
deriving DecidableEq, Repr

/-- Its constructor. -/
def mcwNew (player : Nat) (existing : Bool) : MCWState :=
  ⟨false, [], player, existing, false, [], []⟩

/-- `added(char)`: `addedPing.fire(char)` (a destroyed ping fires
nothing). -/
def mcwAdded (c : Nat) (s : MCWState) : MCWState :=
  if s.pingsDestroyed then s
  else { s with addedLog := s.addedLog ++ [c] }

/-- `linkTo(player)` (part_009 lines 200-214): return unchanged while the
bin is non-empty; throw if destroyed; connect, then fire for the existing
character if desired.  `env` maps players to their current character. -/
def mcwLinkTo (env : List (Nat × Nat)) (p : Nat) (s : MCWState) :
    Except String MCWState :=
  if ¬s.conns.isEmpty then .ok s
  else if s.isDestroyed then .error "CharacterWatcher is destroyed."
  else
    let s1 := { s with player := p, conns := [MConn.mAdded, MConn.mRemoving] }
    .ok
      (if s1.existing then
        match alGet? p env with
        | some c => mcwAdded c s1
        | none => s1
      else s1)

/-- `watch()` = `linkTo(this.player)`. -/
def mcwWatch (env : List (Nat × Nat)) (s : MCWState) : Except String MCWState :=
  mcwLinkTo env s.player s

/-- `destroy()`: once only; disconnect the bin's connections and destroy
the pings. -/
def mcwDestroy (s : MCWState) : MCWState :=
  if s.isDestroyed then s
  else { s with isDestroyed := true, conns := [], pingsDestroyed := true }

/-! ## GlobalCharacterWatcher (src/unnamed/part_010)

One member CharacterWatcher per registered player, held in `watchers`
(player ↦ member id) over a member heap; each member's pings are wired at
registration to re-fire the aggregate's pings tagged with the player. -/

/-- State of a `GlobalCharacterWatcher`. -/
structure GCWState where
  existing : Bool
  members : List (Nat × MCWState)
  watchers : List (Nat × Nat)
  freshM : Nat
  aggAdded : List (Nat × Nat)
  aggRemoving : List (Nat × Nat)
deriving DecidableEq, Repr

/-- Its constructor. -/
def gcwNew (existing : Bool) : GCWState :=
  ⟨existing, [], [], 0, [], []⟩

/-- `register(player)` (part_010 lines 59-69): a no-op when the player
already has a watcher; otherwise create a member watcher, connect its pings
to the aggregate's, start it, and store it.  Fires the member watcher
fires during `watch()` (the existing character) are forwarded tagged with
the player. -/
def gcwRegister (env : List (Nat × Nat)) (p : Nat) (s : GCWState) : GCWState :=
  if (alGet? p s.watchers).isSome then s
  else
    match mcwWatch env (mcwNew p s.existing) with
    | .error _ => s
    | .ok m =>
      { s with
          members := alSet s.freshM m s.members
          watchers := alSet p s.freshM s.watchers
          freshM := s.freshM + 1
          aggAdded := s.aggAdded ++ m.addedLog.map (fun c => (p, c)) }

/-- `unregister(player)` (part_010 lines 77-83): a no-op when the player
has no watcher; otherwise `destroy()` the member watcher and remove it from
the map. -/
def gcwUnregister (p : Nat) (s : GCWState) : GCWState :=
  match alGet? p s.watchers with
  | none => s
  | some id =>
    { s with
        members :=
          s.members.map (fun e => if e.1 = id then (e.1, mcwDestroy e.2) else e)
        watchers := alErase p s.watchers }

/-- Whether a member watcher's `CharacterAdded` connection for player `p`
is live and its ping still forwards. -/
def mcwFires (p : Nat) (m : MCWState) : Bool :=
  m.player == p && m.conns.contains MConn.mAdded && !m.pingsDestroyed

/-- A live `CharacterAdded(p, c)` event: every member watcher with a live
connection on `p` handles it and its ping re-fires through the aggregate,
tagged with the player. -/
def gcwDeliver (p c : Nat) (s : GCWState) : GCWState :=
  { s with
      members :=
        s.members.map (fun e => if mcwFires p e.2 then (e.1, mcwAdded c e.2) else e)
      aggAdded :=
        s.aggAdded ++
          (s.members.filter (fun e => mcwFires p e.2)).map (fun _ => (p, c)) }

/-! ## Helper lemmas -/

/-- When a filter keeps exactly one element, `find?` returns it. -/
theorem find?_of_filter_singleton {α : Type} (p : α → Bool) :
    ∀ (l : List α) (m : α), l.filter p = [m] → l.find? p = some m := by
  intro l
  induction l with
  | nil => intro m h; simp at h
  | cons a t ih =>
    intro m h
    by_cases hp : p a = true
    · rw [List.filter_cons_of_pos hp] at h
      obtain ⟨ha, -⟩ := List.cons.inj h
      subst ha
      simp [List.find?, hp]
    · rw [List.filter_cons_of_neg (by simpa using hp)] at h
      simpa [List.find?, hp] using ih m h

/-- Erasing a key makes its lookup fail. -/
theorem alGet?_alErase_self {β : Type} (k : Nat) :
    ∀ l : List (Nat × β), alGet? k (alErase k l) = none := by
  intro l
  induction l with
  | nil => rfl
  | cons e t ih =>
    by_cases hk : e.1 = k
    · simpa [alErase, hk] using ih
    · simpa [alErase, alGet?, hk] using ih

/-- Erasing an absent key changes nothing. -/
theorem alErase_of_alGet?_none {β : Type} (k : Nat) :
    ∀ l : List (Nat × β), alGet? k l = none → alErase k l = l := by
  intro l
  induction l with
  | nil => intro _; rfl
  | cons e t ih =>
    intro h
    by_cases hk : e.1 = k
    · rw [show e = (k, e.2) from by rw [← hk]] at h
      simp [alGet?] at h
    · have ht : alGet? k t = none := by
        cases e with
        | mk k' v =>
          have hk' : k' ≠ k := hk
          simpa [alGet?, hk'] using h
      show List.filter _ (e :: t) = e :: t
      rw [List.filter_cons_of_pos (by simp [hk])]
      exact congrArg (e :: ·) (ih ht)

/-- Updating the value at a key through a map rewrites the first match. -/
theorem alGet?_map_update {β : Type} (k : Nat) (g : β → β) :
    ∀ (l : List (Nat × β)) (v : β), alGet? k l = some v →
      alGet? k (l.map (fun e => if e.1 = k then (e.1, g e.2) else e)) =
        some (g v) := by
  intro l
  induction l with
  | nil => intro v h; simp [alGet?] at h
  | cons e t ih =>
    intro v h
    cases e with
    | mk k' w =>
      rw [List.map_cons]
      by_cases hk : k' = k
      · subst hk
        have hw : w = v := by simpa [alGet?] using h
        subst hw
        rw [show (if (k', w).1 = k' then ((k', w).1, g (k', w).2) else (k', w)) =
              (k', g w) from by simp]
        simp [alGet?]
      · have h2 : alGet? k t = some v := by simpa [alGet?, hk] using h
        rw [show (if (k', w).1 = k then ((k', w).1, g (k', w).2) else (k', w)) =
              (k', w) from by simp [hk]]
        simpa [alGet?, hk] using ih v h2
/-! ## Claims -/

/-- C1, counterexample: with entity 1 already tracked (cleanup `user 1`),
tracking it again with `user 2` leaves the collection state literally
unchanged, and entity 1's DisposerList still holds only the unbind
closure, the connection and `user 1` — the second cleanup is not appended,
so no later untrack can invoke it. -/
theorem c1_retrack_drops_second_cleanup :
    bindTo 1 (.user 2) sTracked = sTracked ∧
      alGetD 0 (bindTo 1 (.user 2) sTracked).heap [] =
        [.unbind 1, .conn 1, .user 1] := by
  exact ⟨rfl, by decide⟩

/-- C1, amended: `track` on an already-tracked entity is a pure no-op —
`InstanceCollection.bindTo` returns before touching the entity's
DisposerList, so the new cleanup item is not appended and the collection
state is unchanged. -/
theorem c1_retrack_noop (s : ICState) (e : Nat) (it : Item)
    (h : binMapHas e s = true) : bindTo e it s = s := by
  simp [bindTo, h]

/-- C1, witness for the amended theorem at a concrete tracked state. -/
theorem c1_retrack_noop_holds :
    binMapHas 1 sTracked = true ∧ bindTo 1 (.user 2) sTracked = sTracked :=
  ⟨by decide, c1_retrack_noop sTracked 1 (.user 2) (by decide)⟩

/-- C2, evaluation at the failing input: in a DisposerList holding the
single disposer 0, whose body re-entrantly adds disposer 1, `release`
returns having invoked only disposer 0; disposer 1 is left unreachable
(`head` is cleared past it), and even a second `release` never invokes it.
By contrast, when the re-entrant adder is not the last node
(list `[0, 2]`, disposer 0 adds disposer 1), all three run in list order —
the captured-`next` slip only loses additions made while the tail node's
disposer runs. -/
theorem c2_release_loses_reentrant_tail_add :
    Option.map XState.invoked
        (destroyX 9 (xAdd (.mk 0 [.mk 1 []]) X0)) = some [0] ∧
      Option.map XState.head
        (destroyX 9 (xAdd (.mk 0 [.mk 1 []]) X0)) = some none ∧
      Option.map XState.invoked
        ((destroyX 9 (xAdd (.mk 0 [.mk 1 []]) X0)).bind (destroyX 9)) =
        some [0] ∧
      Option.map XState.invoked
        (destroyX 9 (xAdd (.mk 2 []) (xAdd (.mk 0 [.mk 1 []]) X0))) =
        some [0, 2, 1] :=
  ⟨rfl, rfl, rfl, rfl⟩
/-- C3, counterexample: `untrack` of entity 7, which was never tracked,
returns `true`, not `false` — `BinMap.delete` first materializes a bin for
the key through `getBin`, so the subsequent `map.delete` always finds one
and reports a deletion. -/
theorem c3_untrack_of_never_tracked_returns_true :
    Option.map Prod.fst (icCall 3 (ICCall.del 7) icEmpty) = some true := rfl

/-- C3, amended, both directions.  First: `untrack` of an entity that is
not tracked returns `true` while leaving the observable collection state
unchanged (the tracked-key map, the invoked-cleanup log and the
disconnection log are exactly those of the input; the only residue is a
dead empty bin and a bumped allocator).  Second: `untrack` of a tracked
entity never returns: the first item of the entity's DisposerList is the
`() => unbindFrom(instance)` closure, which re-enters `BinMap.delete` on
the same bin object before the destroy loop has advanced its head, so the
call recurses at an unchanged state and exhausts any amount of fuel. -/
theorem c3_untrack_always_reports_removal :
    (∀ (s : ICState) (e f : Nat), binMapHas e s = false →
        icCall (f + 2) (ICCall.del e) s =
          some (true,
            { s with heap := alSet s.fresh [] s.heap, fresh := s.fresh + 1 })) ∧
      ∀ f : Nat, icCall f (ICCall.del 1) sTracked = none := by
  constructor
  · intro s e f h
    have h0 : alGet? e s.binOf = none := by
      cases hx : alGet? e s.binOf with
      | none => rfl
      | some a => simp [binMapHas, hx] at h
    have he : alErase e s.binOf = s.binOf := alErase_of_alGet?_none e s.binOf h0
    have he2 : alErase e ((e, s.fresh) :: s.binOf) = s.binOf := by
      show List.filter _ ((e, s.fresh) :: s.binOf) = s.binOf
      rw [List.filter_cons_of_neg (by simp)]
      exact he
    have hg : getBin e s =
        (s.fresh,
         { s with
            binOf := alSet e s.fresh s.binOf
            heap := alSet s.fresh [] s.heap
            fresh := s.fresh + 1 }) := by
      simp [getBin, h0]
    simp [icCall, hg, alGetD, alGet?, alSet, mapDelete, he2]
  · have hA : getBin 1 sTracked = (0, sTracked) := by decide
    have hB : alGetD 0 sTracked.heap [] =
        [Item.unbind 1, Item.conn 1, Item.user 1] := by decide
    have key : ∀ g : Nat,
        icCall g (ICCall.del 1) sTracked = none ∧
          icCall g
            (ICCall.destGo 0 [Item.unbind 1, Item.conn 1, Item.user 1])
            sTracked = none ∧
          icCall g (ICCall.clean (Item.unbind 1)) sTracked = none := by
      intro g
      induction g with
      | zero => exact ⟨rfl, rfl, rfl⟩
      | succ n ih =>
        refine ⟨?_, ?_, ?_⟩
        · simp only [icCall, hA, hB]
          rw [ih.2.1]
        · simp only [icCall]
          rw [ih.2.2]
        · simp only [icCall]
          exact ih.1
    exact fun f => (key f).1

/-- C3, witness for the amended theorem: untracking the absent entity 5 of
the empty collection returns `true` and only leaves the dead fresh bin. -/
theorem c3_untrack_always_reports_removal_holds :
    binMapHas 5 icEmpty = false ∧
      icCall 2 (ICCall.del 5) icEmpty =
        some (true,
          { icEmpty with
              heap := alSet icEmpty.fresh [] icEmpty.heap
              fresh := icEmpty.fresh + 1 }) :=
  ⟨by decide, c3_untrack_always_reports_removal.1 icEmpty 5 0 (by decide)⟩
/-- C8, confirmed: for an absent key, `has` answers `false` — it is
embedded as a pure read (`ICState → Bool`) because the source is
`return this.map.has(key)` with no write path — while `add`, `release`
(`BinMap.destroy`) and `delete` all reach the key through `getBin`, whose
result state stores a bin for the key: after `add` the key is present, the
`release` call returns exactly the `getBin`-materialized state, and the
`getBin` step `delete` starts with has already materialized the key. -/
theorem c8_has_reads_only_other_ops_materialize (s : ICState)
    (k f : Nat) (d : Item) (h : binMapHas k s = false) :
    binMapHas k (binMapAdd k d s) = true ∧
      icCall (f + 2) (ICCall.rel k) s = some (true, (getBin k s).2) ∧
      binMapHas k ((getBin k s).2) = true := by
  have h0 : alGet? k s.binOf = none := by
    cases hx : alGet? k s.binOf with
    | none => rfl
    | some a => simp [binMapHas, hx] at h
  have hg : getBin k s =
      (s.fresh,
       { s with
          binOf := alSet k s.fresh s.binOf
          heap := alSet s.fresh [] s.heap
          fresh := s.fresh + 1 }) := by
    simp [getBin, h0]
  refine ⟨?_, ?_, ?_⟩
  · simp [binMapAdd, hg, binMapHas, alGet?, alSet]
  · simp [icCall, hg, alGetD, alGet?, alSet]
  · simp [hg, binMapHas, alGet?, alSet]

/-- C8, witness at the empty registry and key 4. -/
theorem c8_has_reads_only_other_ops_materialize_holds :
    binMapHas 4 icEmpty = false ∧
      (binMapHas 4 (binMapAdd 4 (.user 9) icEmpty) = true ∧
        icCall 2 (ICCall.rel 4) icEmpty = some (true, (getBin 4 icEmpty).2) ∧
        binMapHas 4 ((getBin 4 icEmpty).2) = true) :=
  ⟨by decide, c8_has_reads_only_other_ops_materialize icEmpty 4 0 (.user 9) (by decide)⟩

/-- C10, confirmed: on a key with `has(k) = false`, both `release`
(`BinMap.destroy`) and `isEmpty` go through `getBin`, which creates and
stores an empty DisposerList under the key as a side effect: both return
the `getBin`-materialized state, that state answers `has(k) = true`, and
the stored bin is empty even though no disposer was ever added for `k`. -/
theorem c10_destroy_isEmpty_materialize_empty_bin (s : ICState)
    (k f : Nat) (h : binMapHas k s = false) :
    binMapIsEmpty k s = (true, (getBin k s).2) ∧
      binMapHas k ((binMapIsEmpty k s).2) = true ∧
      icCall (f + 2) (ICCall.rel k) s = some (true, (getBin k s).2) ∧
      alGetD (getBin k s).1 ((getBin k s).2).heap [] = [] := by
  have h0 : alGet? k s.binOf = none := by
    cases hx : alGet? k s.binOf with
    | none => rfl
    | some a => simp [binMapHas, hx] at h
  have hg : getBin k s =
      (s.fresh,
       { s with
          binOf := alSet k s.fresh s.binOf
          heap := alSet s.fresh [] s.heap
          fresh := s.fresh + 1 }) := by
    simp [getBin, h0]
  refine ⟨?_, ?_, ?_, ?_⟩
  · simp [binMapIsEmpty, hg, alGetD, alGet?, alSet]
  · simp [binMapIsEmpty, hg, binMapHas, alGet?, alSet]
  · simp [icCall, hg, alGetD, alGet?, alSet]
  · simp [hg, alGetD, alGet?, alSet]

/-- C10, witness at the empty registry and key 6. -/
theorem c10_destroy_isEmpty_materialize_empty_bin_holds :
    binMapHas 6 icEmpty = false ∧
      (binMapIsEmpty 6 icEmpty = (true, (getBin 6 icEmpty).2) ∧
        binMapHas 6 ((binMapIsEmpty 6 icEmpty).2) = true ∧
        icCall 2 (ICCall.rel 6) icEmpty = some (true, (getBin 6 icEmpty).2) ∧
        alGetD (getBin 6 icEmpty).1 ((getBin 6 icEmpty).2).heap [] = []) :=
  ⟨by decide, c10_destroy_isEmpty_materialize_empty_bin icEmpty 6 0 (by decide)⟩
/-- C4, confirmed: a ClassWatcher constructed with existing-match reporting
enabled, watching a parent that already holds exactly one child of the
watched class, fires `onAdded` exactly once with that child when `watch`
runs, records it as the current occurrence, and only then are the live
connections in place (the model processes no live event during `watch`). -/
theorem c4_existing_child_fires_once (children : List Child)
    (p cls : Nat) (m : Child)
    (h : children.filter (fun c => c.cls == cls) = [m]) :
    Except.map CWState.addedLog (cwWatch children (cwNew p cls true)) =
        .ok [m] ∧
      Except.map CWState.currentInstance (cwWatch children (cwNew p cls true)) =
        .ok (some m) := by
  have hf : children.find? (fun c => c.cls == cls) = some m :=
    find?_of_filter_singleton (fun c => c.cls == cls) children m h
  constructor
  · simp [cwWatch, cwNew, findFirstChildOfClass, hf, cwAdded, Except.map]
  · simp [cwWatch, cwNew, findFirstChildOfClass, hf, cwAdded, Except.map]

/-- C4, witness: parent 1 with the single child `(5, 3)` of class 3. -/
theorem c4_existing_child_fires_once_holds :
    [Child.mk 5 3].filter (fun c => c.cls == 3) = [Child.mk 5 3] ∧
      (Except.map CWState.addedLog (cwWatch [Child.mk 5 3] (cwNew 1 3 true)) =
          .ok [Child.mk 5 3] ∧
        Except.map CWState.currentInstance
            (cwWatch [Child.mk 5 3] (cwNew 1 3 true)) =
          .ok (some (Child.mk 5 3))) :=
  ⟨by decide, c4_existing_child_fires_once [Child.mk 5 3] 1 3 (Child.mk 5 3) (by decide)⟩

/-- C9, confirmed implicit behaviour of `ClassWatcher.added`: with a
current occurrence whose occurrence-scoped DisposerList is empty, a
child-added event for a different matching child is not ignored — it
replaces the current child, fires `onAdded`, and fires no `onRemoved`
(and releases nothing from the replaced occurrence's scope); the event is
ignored exactly when the scoped list is non-empty or the child is already
the current one. -/
theorem c9_added_replaces_only_when_scope_empty (s : CWState)
    (c c0 : Child) (hcur : s.currentInstance = some c0) :
    (s.scopedItems = [] → c ≠ c0 →
        cwAdded c s =
          { s with
              currentInstance := some c
              scopedItems := []
              addedLog := s.addedLog ++ [c] }) ∧
      (s.scopedItems ≠ [] → cwAdded c s = s) ∧
      cwAdded c0 s = s := by
  refine ⟨?_, ?_, ?_⟩
  · intro hscope hne
    have hcond : ¬(¬s.scopedItems.isEmpty = true ∨ s.currentInstance = some c) := by
      rintro (hx | hx)
      · exact hx (by simp [hscope])
      · rw [hcur] at hx
        exact hne (Option.some.inj hx).symm
    unfold cwAdded
    rw [if_neg hcond]
  · intro hscope
    have hcond : (¬s.scopedItems.isEmpty = true ∨ s.currentInstance = some c) :=
      .inl (by simpa [List.isEmpty_iff] using hscope)
    unfold cwAdded
    rw [if_pos hcond]
  · have hcond : (¬s.scopedItems.isEmpty = true ∨ s.currentInstance = some c0) :=
      .inr hcur
    unfold cwAdded
    rw [if_pos hcond]

/-- C9, witness: current child `(1, 3)` with empty scope, event for
`(2, 3)` replaces it; with a non-empty scope the event is ignored; an
event for the current child itself is ignored. -/
theorem c9_added_replaces_only_when_scope_empty_holds :
    ({ cwNew 1 3 true with currentInstance := some (Child.mk 1 3) } : CWState).currentInstance
        = some (Child.mk 1 3) ∧
      cwAdded (Child.mk 2 3)
          { cwNew 1 3 true with currentInstance := some (Child.mk 1 3) } =
        { cwNew 1 3 true with
            currentInstance := some (Child.mk 2 3)
            addedLog := [Child.mk 2 3] } := by
  refine ⟨by decide, ?_⟩
  have h :=
    (c9_added_replaces_only_when_scope_empty
      { cwNew 1 3 true with currentInstance := some (Child.mk 1 3) }
      (Child.mk 2 3) (Child.mk 1 3) (by decide)).1 (by decide) (by decide)
  simpa [cwNew] using h

/-- C5, counterexample: the bin-guard CharacterWatcher
(src/src/char-watcher/CharacterWatcher.ts) is live and already watching
after one `watch()`, yet a second `watch()` adds a second pair of event
connections, and a single subsequent character appearance then fires
`onAdded` twice — not once. -/
theorem c5_double_watch_fires_twice :
    Except.map (fun s => (chwDeliver 5 s).addedLog)
        (Except.bind (chwWatch none (chwNew true)) (chwWatch none)) =
      .ok [5, 5] := rfl

/-- C5, amended: `watch()` while already watching is a no-op for the
watchers that guard `linkTo` with the non-empty-bin check — `ClassWatcher`
and the linkTo-variant CharacterWatcher return the state unchanged, so no
duplicate subscriptions arise; the bin-guard CharacterWatcher variant has
no such guard and duplicates its connections (see the counterexample). -/
theorem c5_watch_idempotent_on_guarded_watchers :
    (∀ (children : List Child) (s : CWState), s.conns ≠ [] →
        cwWatch children s = .ok s) ∧
      ∀ (env : List (Nat × Nat)) (s : MCWState), s.conns ≠ [] →
        mcwWatch env s = .ok s := by
  constructor
  · intro children s h
    have : ¬s.conns.isEmpty := by simpa [List.isEmpty_iff] using h
    simp [cwWatch, this]
  · intro env s h
    have : ¬s.conns.isEmpty := by simpa [List.isEmpty_iff] using h
    simp [mcwWatch, mcwLinkTo, this]

/-- C5, witness: a watching ClassWatcher and a watching CharacterWatcher
are both left unchanged by a second `watch()`. -/
theorem c5_watch_idempotent_on_guarded_watchers_holds :
    (({ cwNew 1 3 true with conns := [CWConn.added, CWConn.removed] } : CWState).conns ≠ [] ∧
        cwWatch [] { cwNew 1 3 true with conns := [CWConn.added, CWConn.removed] } =
          .ok { cwNew 1 3 true with conns := [CWConn.added, CWConn.removed] }) ∧
      ({ mcwNew 1 true with conns := [MConn.mAdded, MConn.mRemoving] } : MCWState).conns ≠ [] ∧
        mcwWatch [] { mcwNew 1 true with conns := [MConn.mAdded, MConn.mRemoving] } =
          .ok { mcwNew 1 true with conns := [MConn.mAdded, MConn.mRemoving] } :=
  ⟨⟨by decide,
    c5_watch_idempotent_on_guarded_watchers.1 []
      { cwNew 1 3 true with conns := [CWConn.added, CWConn.removed] } (by decide)⟩,
   by decide,
   c5_watch_idempotent_on_guarded_watchers.2 []
     { mcwNew 1 true with conns := [MConn.mAdded, MConn.mRemoving] } (by decide)⟩

/-- C6, confirmed: after `destroy()` of a live watcher, `watch()` throws
synchronously for all three watcher classes: `ClassWatcher` and the
linkTo-variant CharacterWatcher find an empty bin and a set destroyed
flag, the bin-guard CharacterWatcher finds its constructor-filled bin
drained. -/
theorem c6_watch_after_destroy_throws :
    (∀ (s : CWState) (children : List Child), s.isDestroyed = false →
        cwWatch children (cwDestroy s) = .error "ClassWatcher is destroyed.") ∧
      (∀ (s : ChWState) (env : Option Nat),
        chwWatch env (chwDestroy s) = .error "CharacterWatcher is destroyed.") ∧
      ∀ (s : MCWState) (env : List (Nat × Nat)), s.isDestroyed = false →
        mcwWatch env (mcwDestroy s) = .error "CharacterWatcher is destroyed." := by
  refine ⟨?_, ?_, ?_⟩
  · intro s children h
    simp [cwDestroy, h, cwClearCurrent, cwWatch]
  · intro s env
    simp [chwDestroy, chwWatch]
  · intro s env h
    simp [mcwDestroy, h, mcwWatch, mcwLinkTo]

/-- C6, witness: destroying a fresh watcher of each class and watching
again throws. -/
theorem c6_watch_after_destroy_throws_holds :
    ((cwNew 1 3 true).isDestroyed = false ∧
        cwWatch [] (cwDestroy (cwNew 1 3 true)) =
          .error "ClassWatcher is destroyed.") ∧
      chwWatch none (chwDestroy (chwNew true)) =
          .error "CharacterWatcher is destroyed." ∧
      (mcwNew 1 true).isDestroyed = false ∧
      mcwWatch [] (mcwDestroy (mcwNew 1 true)) =
        .error "CharacterWatcher is destroyed." :=
  ⟨⟨by decide, c6_watch_after_destroy_throws.1 (cwNew 1 3 true) [] (by decide)⟩,
   c6_watch_after_destroy_throws.2.1 (chwNew true) none,
   by decide,
   c6_watch_after_destroy_throws.2.2 (mcwNew 1 true) [] (by decide)⟩
/-- C7, confirmed: on a watching GlobalCharacterWatcher, registering a
player that already has a member watcher leaves the aggregate unchanged
(no second watcher, no duplicate notification path); unregistering a
registered player removes it from the membership map and `destroy()`s its
member watcher, and a later character-added event for that player forwards
nothing through the aggregate.  The third hypothesis says every member
that could still forward for the player is the registered, live one — an
invariant `register`'s guard maintains, since it creates at most one live
member per player. -/
theorem c7_register_idempotent_unregister_destroys :
    (∀ (env : List (Nat × Nat)) (p : Nat) (s : GCWState),
        (alGet? p s.watchers).isSome → gcwRegister env p s = s) ∧
      ∀ (p c : Nat) (s : GCWState) (id : Nat) (m : MCWState),
        alGet? p s.watchers = some id →
        alGet? id s.members = some m →
        (∀ e ∈ s.members, mcwFires p e.2 = true →
            e.1 = id ∧ e.2.isDestroyed = false) →
        alGet? p (gcwUnregister p s).watchers = none ∧
          alGet? id (gcwUnregister p s).members = some (mcwDestroy m) ∧
          (gcwDeliver p c (gcwUnregister p s)).aggAdded =
            (gcwUnregister p s).aggAdded := by
  constructor
  · intro env p s h
    simp [gcwRegister, h]
  · intro p c s id m h1 h2 h3
    have hs' : gcwUnregister p s =
        { s with
            members :=
              s.members.map
                (fun e => if e.1 = id then (e.1, mcwDestroy e.2) else e)
            watchers := alErase p s.watchers } := by
      simp [gcwUnregister, h1]
    refine ⟨?_, ?_, ?_⟩
    · rw [hs']
      exact alGet?_alErase_self p s.watchers
    · rw [hs']
      exact alGet?_map_update id mcwDestroy s.members m h2
    · rw [hs']
      have hfil :
          (s.members.map
              (fun e => if e.1 = id then (e.1, mcwDestroy e.2) else e)).filter
            (fun e => mcwFires p e.2) = [] := by
        rw [List.filter_eq_nil_iff]
        intro e he
        rcases List.mem_map.mp he with ⟨e0, he0, hfe⟩
        rw [← hfe]
        by_cases hid : e0.1 = id
        · rw [if_pos hid]
          by_cases hd : e0.2.isDestroyed = true
          · rw [show mcwDestroy e0.2 = e0.2 from by simp [mcwDestroy, hd]]
            intro hf
            have := (h3 e0 he0 hf).2
            rw [hd] at this
            exact absurd this (by simp)
          · rw [show mcwDestroy e0.2 =
                { e0.2 with
                    isDestroyed := true, conns := [], pingsDestroyed := true }
              from by simp [mcwDestroy, hd]]
            simp [mcwFires]
        · rw [if_neg hid]
          intro hf
          exact hid (h3 e0 he0 hf).1
      simp [gcwDeliver, hfil]

/-- C7, witness: register player 1 on a fresh aggregate (no existing
characters), then unregister it; the membership entry is gone, the member
watcher is destroyed, and a later character event for player 1 forwards
nothing. -/
theorem c7_register_idempotent_unregister_destroys_holds :
    (alGet? 1 (gcwRegister [] 1 (gcwNew false)).watchers = some 0 ∧
        alGet? 0 (gcwRegister [] 1 (gcwNew false)).members =
          some { mcwNew 1 false with conns := [MConn.mAdded, MConn.mRemoving] } ∧
        (∀ e ∈ (gcwRegister [] 1 (gcwNew false)).members,
          mcwFires 1 e.2 = true → e.1 = 0 ∧ e.2.isDestroyed = false)) ∧
      alGet? 1 (gcwUnregister 1 (gcwRegister [] 1 (gcwNew false))).watchers = none ∧
        alGet? 0 (gcwUnregister 1 (gcwRegister [] 1 (gcwNew false))).members =
          some (mcwDestroy
            { mcwNew 1 false with conns := [MConn.mAdded, MConn.mRemoving] }) ∧
        (gcwDeliver 1 7 (gcwUnregister 1 (gcwRegister [] 1 (gcwNew false)))).aggAdded =
          (gcwUnregister 1 (gcwRegister [] 1 (gcwNew false))).aggAdded :=
  ⟨⟨by decide, by decide, by decide⟩,
   c7_register_idempotent_unregister_destroys.2 1 7
     (gcwRegister [] 1 (gcwNew false)) 0
     { mcwNew 1 false with conns := [MConn.mAdded, MConn.mRemoving] }
     (by decide) (by decide) (by decide)⟩
